import Mathlib

/-!
Verification of the Brave web-search CLI (src/main.py).

The file gives a shallow embedding of the program: decoded JSON documents
become an inductive `Json` type, the pure helper functions of the source
(`build_params`, `compact_table`, `extract_web_results`, the safe-search
map) become Lean functions with the same names, and the effectful `main`
becomes a function from the ambient inputs (environment variable, argv,
one abstract HTTP fetch) to the list of observable events (stderr lines,
one optional file write, stdout lines) plus a termination status.
Machine integers of the source are Python bignums, so plain `Int` is used.
-/

namespace Brave

/-- Decoded JSON value, as produced by the json library of the source
language. Numbers are restricted to integers: no claim involves decoded
floating-point values. Objects keep their key order, as the source
language guarantees. -/
inductive Json where
  | null : Json
  | bool : Bool → Json
  | num : Int → Json
  | str : String → Json
  | arr : List Json → Json
  | obj : List (String × Json) → Json

/-- Truthiness of a decoded JSON value under the source language: null,
false, zero, the empty string, the empty array and the empty object are
falsy, everything else is truthy. -/
def pyTruthy : Json → Bool
  | .null => false
  | .bool b => b
  | .num n => n != 0
  | .str s => s != ""
  | .arr l => !l.isEmpty
  | .obj l => !l.isEmpty

/-- Dictionary lookup, modelling `d.get(k)` / `k in d` on a decoded JSON
object (keys of decoded objects are unique, so first match suffices). -/
def dictGet : List (String × Json) → String → Option Json
  | [], _ => none
  | (k, v) :: rest, key => if k = key then some v else dictGet rest key

/-- Lookup with the None default, modelling `d.get(k)` exactly. -/
def getF (fields : List (String × Json)) (k : String) : Json :=
  (dictGet fields k).getD Json.null

/-- The `or` operator of the source language on decoded values. -/
def pyOr (a b : Json) : Json := if pyTruthy a then a else b

/-- Whitespace characters recognised by `str.split()` of the source
language (the ASCII ones; exotic Unicode whitespace is not modelled). -/
def pyWsChar (c : Char) : Bool :=
  c == ' ' || c == '\t' || c == '\n' || c == '\r' || c == '\x0b' || c == '\x0c'

/-- Split a character list on runs of whitespace, dropping empty pieces:
the behaviour of `str.split()` with no argument. The accumulator holds
the current word reversed. -/
def splitWs : List Char → List Char → List (List Char)
  | [], acc => if acc.isEmpty then [] else [acc.reverse]
  | c :: cs, acc =>
    if pyWsChar c then
      if acc.isEmpty then splitWs cs [] else acc.reverse :: splitWs cs []
    else splitWs cs (c :: acc)

/-- Words of a string in the sense of `str.split()`. -/
def wordsOf (s : String) : List (List Char) := splitWs s.data []

/-- Join words with single spaces, modelling `" ".join(words)`. -/
def joinWords : List (List Char) → List Char
  | [] => []
  | [w] => w
  | w :: ws => w ++ ' ' :: joinWords ws

/-- Whitespace collapsing of the source, line 71: `" ".join(s.split())`. -/
def collapseWs (s : String) : String := String.mk (joinWords (wordsOf s))

/-- Length of a string in code points, matching `len` of the source
language on text. -/
def pyLen (s : String) : Nat := s.data.length

/-- Slice `s[:n]` of the source language. -/
def strTake (s : String) (n : Nat) : String := String.mk (s.data.take n)

/-- Truncation step of the source, lines 72-73: strings longer than 160
code points are cut to their first 157 plus the three-character ellipsis
marker. -/
def truncate160 (s : String) : String :=
  if 160 < pyLen s then strTake s 157 ++ "..." else s

/-- Right-justification to width 2 with spaces: the format `f"{i:>2}"`. -/
def rjust2 (i : Nat) : String :=
  let s := toString i
  if pyLen s < 2 then String.mk (List.replicate (2 - pyLen s) ' ') ++ s else s

/-- Total length of a list of words. -/
def sumLen : List (List Char) → Nat
  | [] => 0
  | w :: ws => w.length + sumLen ws

/-- Greedy line filling at width 92, modelling `textwrap.fill(s, width=92)`
of the source language standard library for the input shape it receives
here: whitespace-collapsed, single-spaced text. Words are chunks between
spaces; a word longer than 92 is broken to fill the remaining room of the
current line (`break_long_words`). The hyphen-splitting refinement of the
library chunker is not modelled. `cur` is the line under construction. -/
def fill92Go (cur : List Char) : List (List Char) → List (List Char)
  | [] => if cur.isEmpty then [] else [cur]
  | w :: ws =>
    if cur.isEmpty then
      if w.length ≤ 92 then fill92Go w ws
      else (w.take 92) :: fill92Go [] (w.drop 92 :: ws)
    else
      if cur.length + 1 + w.length ≤ 92 then
        fill92Go (cur ++ ' ' :: w) ws
      else if h92 : 92 < w.length then
        have hsl : 92 - (cur.length + 1) ≤ w.length := by omega
        if hz : 92 - (cur.length + 1) = 0 then cur :: fill92Go [] (w :: ws)
        else
          (cur ++ ' ' :: w.take (92 - (cur.length + 1))) ::
            fill92Go [] (w.drop (92 - (cur.length + 1)) :: ws)
      else cur :: fill92Go [] (w :: ws)
  termination_by ws => sumLen ws + ws.length + (if cur.isEmpty then 0 else 1)
  decreasing_by
    all_goals simp_all [sumLen, List.length_drop]
    all_goals try omega
    all_goals cases w <;> simp_all [sumLen] <;> omega

/-- Word wrap of the source, line 74: `textwrap.fill(snippet, width=92)`. -/
def fill92 (s : String) : String :=
  String.intercalate "\n" ((fill92Go [] (wordsOf s)).map String.mk)

/-- Escape one character inside a repr of a text value of the source
language (backslash, the quote character, and the common control
characters; other non-printables are left as-is in this model). -/
def pyReprEscChar (c : Char) : String :=
  if c = '\\' then "\\\\"
  else if c = '\x27' then "\\\x27"
  else if c = '\n' then "\\n"
  else if c = '\r' then "\\r"
  else if c = '\t' then "\\t"
  else String.singleton c

/-- Repr of a text value: single-quoted with escapes (the variant that
switches to double quotes when the text contains a single quote is not
modelled). -/
def pyReprStr (s : String) : String :=
  "\x27" ++ String.join (s.data.map pyReprEscChar) ++ "\x27"

mutual

/-- Repr of a decoded JSON value under the source language, used by
f-string interpolation for container values. -/
def pyRepr : Json → String
  | .null => "None"
  | .bool true => "True"
  | .bool false => "False"
  | .num n => toString n
  | .str s => pyReprStr s
  | .arr xs => "[" ++ pyReprSeq xs ++ "]"
  | .obj fs => "\x7b" ++ pyReprFieldSeq fs ++ "\x7d"

/-- Comma-separated reprs of the elements of a list. -/
def pyReprSeq : List Json → String
  | [] => ""
  | [x] => pyRepr x
  | x :: y :: xs => pyRepr x ++ ", " ++ pyReprSeq (y :: xs)

/-- Comma-separated reprs of the fields of a dictionary. -/
def pyReprFieldSeq : List (String × Json) → String
  | [] => ""
  | [(k, v)] => pyReprStr k ++ ": " ++ pyRepr v
  | (k, v) :: f :: fs => pyReprStr k ++ ": " ++ pyRepr v ++ ", " ++ pyReprFieldSeq (f :: fs)

end

/-- Conversion of a decoded value to text by f-string interpolation:
text stays itself, scalars use their canonical spelling, containers use
their repr. -/
def pyStr : Json → String
  | .str s => s
  | .null => "None"
  | .bool true => "True"
  | .bool false => "False"
  | .num n => toString n
  | v => pyRepr v

/-- Hexadecimal digit for a value below 16. -/
def hexDigit (n : Nat) : Char :=
  if n < 10 then Char.ofNat (48 + n) else Char.ofNat (87 + (n % 16))

/-- Escape one character for a JSON string literal as the json library of
the source language does with `ensure_ascii=False`: quote, backslash and
the named control characters get short escapes, other characters below
space get a `\u00XX` escape, everything else (non-ASCII included) is kept
verbatim. -/
def jsonEscChar (c : Char) : String :=
  if c = '"' then "\\\""
  else if c = '\\' then "\\\\"
  else if c = '\n' then "\\n"
  else if c = '\r' then "\\r"
  else if c = '\t' then "\\t"
  else if c = '\x08' then "\\b"
  else if c = '\x0c' then "\\f"
  else if c.toNat < 32 then
    "\\u00" ++ String.mk [hexDigit (c.toNat / 16), hexDigit (c.toNat % 16)]
  else String.singleton c

/-- JSON string literal with the escaping rules above. -/
def jsonQuote (s : String) : String :=
  "\"" ++ String.join (s.data.map jsonEscChar) ++ "\""

/-- Indentation prefix at nesting level `lvl` for 2-space indentation. -/
def indentOf (lvl : Nat) : String := String.mk (List.replicate (2 * lvl) ' ')

mutual

/-- Serialization of a decoded JSON value as `json.dumps(data,
ensure_ascii=False, indent=2)` of the source produces it (also the
content of `json.dump(data, f, ensure_ascii=False, indent=2)`): 2-space
indentation, item separator comma-newline, key separator colon-space,
non-ASCII characters unescaped, key order as stored. -/
def dumpJson : Nat → Json → String
  | _, .null => "null"
  | _, .bool true => "true"
  | _, .bool false => "false"
  | _, .num n => toString n
  | _, .str s => jsonQuote s
  | _, .arr [] => "[]"
  | lvl, .arr (x :: xs) =>
    "[\n" ++ dumpSeq (lvl + 1) (x :: xs) ++ "\n" ++ indentOf lvl ++ "]"
  | _, .obj [] => "\x7b\x7d"
  | lvl, .obj (f :: fs) =>
    "\x7b\n" ++ dumpFields (lvl + 1) (f :: fs) ++ "\n" ++ indentOf lvl ++ "\x7d"

/-- Serialized elements of an array, one per line at the given level. -/
def dumpSeq : Nat → List Json → String
  | _, [] => ""
  | lvl, [x] => indentOf lvl ++ dumpJson lvl x
  | lvl, x :: y :: xs =>
    indentOf lvl ++ dumpJson lvl x ++ ",\n" ++ dumpSeq lvl (y :: xs)

/-- Serialized fields of an object, one per line at the given level. -/
def dumpFields : Nat → List (String × Json) → String
  | _, [] => ""
  | lvl, [(k, v)] => indentOf lvl ++ jsonQuote k ++ ": " ++ dumpJson lvl v
  | lvl, (k, v) :: f :: fs =>
    indentOf lvl ++ jsonQuote k ++ ": " ++ dumpJson lvl v ++ ",\n" ++ dumpFields lvl (f :: fs)

end

/-- Full pretty serialization used both for the stdout JSON block
(line 114 of the source) and for the saved file (line 110). -/
def pyJsonDumps (j : Json) : String := dumpJson 0 j

/-- Test that `pat` is a prefix of `s` (on character lists). -/
def isPrefL : List Char → List Char → Bool
  | [], _ => true
  | _ :: _, [] => false
  | a :: as, b :: bs => a == b && isPrefL as bs

/-- Test that `pat` occurs contiguously somewhere inside `s`. -/
def containsL (pat : List Char) : List Char → Bool
  | [] => isPrefL pat []
  | c :: cs => isPrefL pat (c :: cs) || containsL pat cs

/-- Substring test between strings. -/
def containsSub (s pat : String) : Bool := containsL pat.data s.data

/-- Safe-search dictionary of the source, line 26:
`SAFES_SEARCH_MAP = {0: 'off', 1: 'moderate', 2: 'strict'}`; the partial
lookup models `dict.get`. -/
def SAFES_SEARCH_MAP (n : Int) : Option String :=
  if n = 0 then some "off"
  else if n = 1 then some "moderate"
  else if n = 2 then some "strict"
  else none

/-- Options structure produced by the argument parser of the source
(lines 28-44): one field per declared flag, with the declared defaults.
The timeout is kept as its raw token, since no claim involves its value
and floating point is outside the embedding. -/
structure Args where
  q : String
  count : Int := 10
  offset : Int := 0
  country : String := "us"
  lang : String := "en"
  safesearch : Int := 0
  freshness : Option String := none
  spellcheck : Int := 1
  extra_snippets : Int := 0
  summary : Int := 0
  json : Bool := false
  table : Bool := false
  timeout : String := "15.0"
  save : Option String := none
deriving DecidableEq

/-- Request builder of the source, lines 46-62: the always-present keys
in construction order, then `freshness`, `extra_snippets` and `summary`
appended only when the corresponding option is truthy. -/
def build_params (a : Args) : List (String × Json) :=
  let base : List (String × Json) :=
    [("q", Json.str a.q),
     ("count", Json.num a.count),
     ("offset", Json.num a.offset),
     ("country", Json.str a.country),
     ("search_lang", Json.str a.lang),
     ("safesearch", Json.str ((SAFES_SEARCH_MAP a.safesearch).getD "off")),
     ("spellcheck", Json.num a.spellcheck)]
  let p1 := if a.freshness.getD "" ≠ "" then
    base ++ [("freshness", Json.str (a.freshness.getD ""))] else base
  let p2 := if a.extra_snippets ≠ 0 then
    p1 ++ [("extra_snippets", Json.num 1)] else p1
  if a.summary ≠ 0 then p2 ++ [("summary", Json.num 1)] else p2

/-- Extraction rule of the source, lines 79-84: when the document has a
`web` field holding a document, take its `results` field (the `or []`
replaces a falsy value by the empty list); otherwise take the top-level
`results` field the same way. The raw field value is returned: the code
does not check that it is a list. -/
def extract_web_results (resp : List (String × Json)) : Json :=
  match dictGet resp "web" with
  | some (Json.obj w) =>
    let r := (dictGet w "results").getD (Json.arr [])
    if pyTruthy r then r else Json.arr []
  | _ =>
    let r := (dictGet resp "results").getD (Json.arr [])
    if pyTruthy r then r else Json.arr []

/-- Title lookup of the source, line 68:
`item.get("title") or item.get("source", {}).get("title") or ""`.
The result is `none` when the expression raises: that happens exactly
when the first operand is falsy and the `source` field is present but is
not a document (no `get` attribute). -/
def effTitle (fields : List (String × Json)) : Option Json :=
  let t0 := getF fields "title"
  if pyTruthy t0 then some t0
  else
    match (dictGet fields "source").getD (Json.obj []) with
    | .obj sf =>
      let t1 := getF sf "title"
      some (if pyTruthy t1 then t1 else Json.str "")
    | _ => none

/-- Url lookup of the source, line 69:
`item.get("url") or item.get("link") or ""`. -/
def effUrl (fields : List (String × Json)) : Json :=
  let u0 := getF fields "url"
  if pyTruthy u0 then u0
  else
    let u1 := getF fields "link"
    if pyTruthy u1 then u1 else Json.str ""

/-- Snippet lookup of the source, line 70:
`item.get("description") or item.get("snippet") or ""`. By the final
default the result is either a truthy field value or the empty string. -/
def effSnippet (fields : List (String × Json)) : Json :=
  pyOr (getF fields "description") (pyOr (getF fields "snippet") (Json.str ""))

/-- One iteration of the rendering loop of the source, lines 67-75, for
the item at 1-based index `i`. The result is `none` when the body
raises: on a non-document item (`item.get` does not exist), when the
title lookup raises, or when the snippet value is a truthy non-string
(`split` does not exist on it). -/
def compactRow (i : Nat) (item : Json) : Option String :=
  match item with
  | .obj fields =>
    match effTitle fields with
    | none => none
    | some tv =>
      let uv := effUrl fields
      match effSnippet fields with
      | .str s =>
        let s1 := collapseWs s
        let s2 := truncate160 s1
        let wrapped := fill92 s2
        some (rjust2 i ++ ". " ++ pyStr tv ++ "\n    " ++ pyStr uv ++ "\n    " ++ wrapped)
      | _ => none
  | _ => none

/-- Rows of the rendering loop starting at index `i`; `none` as soon as
one row raises. -/
def compactRows (i : Nat) : List Json → Option (List String)
  | [] => some []
  | item :: rest =>
    match compactRow i item with
    | none => none
    | some r =>
      match compactRows (i + 1) rest with
      | none => none
      | some rs => some (r :: rs)

/-- Table renderer of the source, lines 65-76: the rows of
`enumerate(web_results, start=1)` joined by newlines; `none` when the
loop raises. -/
def compact_table (items : List Json) : Option String :=
  (compactRows 1 items).map (String.intercalate "\n")

/-- Strip whitespace from both ends of a character list, as `int()` and
`float()` of the source language do before parsing. -/
def trimWs (cs : List Char) : List Char :=
  ((cs.dropWhile pyWsChar).reverse.dropWhile pyWsChar).reverse

/-- Value of a nonempty all-digit character list. -/
def natOfDigits (ds : List Char) : Option Nat :=
  match ds with
  | [] => none
  | _ =>
    if ds.all Char.isDigit then
      some (ds.foldl (fun a c => a * 10 + (c.toNat - 48)) 0)
    else none

/-- Integer literal acceptance of `int(v)` in the source language:
surrounding whitespace stripped, optional sign, decimal digits (digit
group underscores are not modelled). -/
def pyInt (v : String) : Option Int :=
  match trimWs v.data with
  | '+' :: ds => (natOfDigits ds).map (fun n => (n : Int))
  | '-' :: ds => (natOfDigits ds).map (fun n => -(n : Int))
  | ds => (natOfDigits ds).map (fun n => (n : Int))

/-- Mantissa shape for a float literal: digits with an optional point,
at least one digit present. -/
def mantissaOk (cs : List Char) : Bool :=
  let p := cs.span Char.isDigit
  match p.2 with
  | [] => !p.1.isEmpty
  | '.' :: fp => fp.all Char.isDigit && !(p.1.isEmpty && fp.isEmpty)
  | _ => false

/-- Float literal acceptance of `float(v)` in the source language
(the special spellings inf and nan are not modelled). -/
def isFloatTok (v : String) : Bool :=
  match trimWs v.data with
  | [] => false
  | cs =>
    let cs1 := match cs with
      | '+' :: r => r
      | '-' :: r => r
      | r => r
    let p := cs1.span (fun c => !(c == 'e' || c == 'E'))
    match p.2 with
    | [] => mantissaOk p.1
    | _ :: ex =>
      let ex1 := match ex with
        | '+' :: r => r
        | '-' :: r => r
        | r => r
      mantissaOk p.1 && !ex1.isEmpty && ex1.all Char.isDigit

/-- Decision of the argument parser that a token in value position is
itself an option: it starts with a dash and is not a lone dash or a
negative number literal. Such a token makes a value-taking flag fail
with a usage error. -/
def looksLikeFlag (v : String) : Bool :=
  match v.data with
  | '-' :: [] => false
  | '-' :: c :: _ => !(c.isDigit || c == '.')
  | _ => false

/-- Accumulator of the argument scan: the options seen so far, with the
declared defaults, and the required query still optional. -/
structure ArgsAcc where
  q : Option String := none
  count : Int := 10
  offset : Int := 0
  country : String := "us"
  lang : String := "en"
  safesearch : Int := 0
  freshness : Option String := none
  spellcheck : Int := 1
  extra_snippets : Int := 0
  summary : Int := 0
  json : Bool := false
  table : Bool := false
  timeout : String := "15.0"
  save : Option String := none
deriving DecidableEq

/-- Scan of the command line by the argument parser declared on lines
28-44 of the source: boolean switches take no value, every other flag
takes the next token as its value, `type=int` flags must parse as
integers, `choices` are checked per occurrence, later occurrences
overwrite earlier ones, and anything else is a usage error. The
abbreviation and `--flag=value` surface syntaxes of the parser library
are not modelled. -/
def scanArgs : List String → ArgsAcc → Except String ArgsAcc
  | [], acc => .ok acc
  | t :: rest, acc =>
    if t = "--json" then scanArgs rest { acc with json := true }
    else if t = "--table" then scanArgs rest { acc with table := true }
    else
      match rest with
      | [] => .error ("usage error: missing value or unrecognized argument: " ++ t)
      | v :: rest2 =>
        if looksLikeFlag v then
          .error ("usage error: argument " ++ t ++ ": expected one argument")
        else if t = "--q" then scanArgs rest2 { acc with q := some v }
        else if t = "--count" then
          match pyInt v with
          | some n => scanArgs rest2 { acc with count := n }
          | none => .error "usage error: argument --count: invalid int value"
        else if t = "--offset" then
          match pyInt v with
          | some n => scanArgs rest2 { acc with offset := n }
          | none => .error "usage error: argument --offset: invalid int value"
        else if t = "--country" then scanArgs rest2 { acc with country := v }
        else if t = "--lang" then scanArgs rest2 { acc with lang := v }
        else if t = "--safesearch" then
          match pyInt v with
          | some n =>
            if n = 0 ∨ n = 1 ∨ n = 2 then scanArgs rest2 { acc with safesearch := n }
            else .error "usage error: argument --safesearch: invalid choice"
          | none => .error "usage error: argument --safesearch: invalid int value"
        else if t = "--freshness" then
          if v = "pd" ∨ v = "pw" ∨ v = "pm" ∨ v = "py" then
            scanArgs rest2 { acc with freshness := some v }
          else .error "usage error: argument --freshness: invalid choice"
        else if t = "--spellcheck" then
          match pyInt v with
          | some n =>
            if n = 0 ∨ n = 1 then scanArgs rest2 { acc with spellcheck := n }
            else .error "usage error: argument --spellcheck: invalid choice"
          | none => .error "usage error: argument --spellcheck: invalid int value"
        else if t = "--extra_snippets" then
          match pyInt v with
          | some n =>
            if n = 0 ∨ n = 1 then scanArgs rest2 { acc with extra_snippets := n }
            else .error "usage error: argument --extra_snippets: invalid choice"
          | none => .error "usage error: argument --extra_snippets: invalid int value"
        else if t = "--summary" then
          match pyInt v with
          | some n =>
            if n = 0 ∨ n = 1 then scanArgs rest2 { acc with summary := n }
            else .error "usage error: argument --summary: invalid choice"
          | none => .error "usage error: argument --summary: invalid int value"
        else if t = "--timeout" then
          if isFloatTok v then scanArgs rest2 { acc with timeout := v }
          else .error "usage error: argument --timeout: invalid float value"
        else if t = "--save" then scanArgs rest2 { acc with save := some v }
        else .error ("usage error: unrecognized argument: " ++ t)

/-- Argument parser of the source, `parse_args` (lines 28-44): scan the
command line, then require the mandatory query. On failure the parser
library prints its usage error on stderr and exits with code 2. -/
def parse_args (argv : List String) : Except String Args :=
  match scanArgs argv {} with
  | .error e => .error e
  | .ok acc =>
    match acc.q with
    | none => .error "usage error: the following argument is required: --q"
    | some qv =>
      .ok { q := qv, count := acc.count, offset := acc.offset,
            country := acc.country, lang := acc.lang,
            safesearch := acc.safesearch, freshness := acc.freshness,
            spellcheck := acc.spellcheck, extra_snippets := acc.extra_snippets,
            summary := acc.summary, json := acc.json, table := acc.table,
            timeout := acc.timeout, save := acc.save }

/-- Outcome of the single HTTP GET, as seen through the HTTP client
library: either a response (status, reason phrase, final url, body text,
and the result of decoding the body as JSON) or a request failure (DNS,
connection, timeout) carrying its message. -/
inductive FetchResult where
  | response (status : Nat) (reason : String) (url : String) (bodyText : String)
      (decoded : Except String Json) : FetchResult
  | failure (errText : String) : FetchResult

/-- Message of the HTTPError raised by `raise_for_status` of the HTTP
client library: modelled from that library, which raises exactly for
400 ≤ status < 600, with a client or server wording. -/
def httpErrorText (status : Nat) (reason url : String) : String :=
  toString status ++ (if status < 500 then " Client Error: " else " Server Error: ")
    ++ reason ++ " for url: " ++ url

/-- Request block of the source, lines 97-106: `raise_for_status` makes
statuses in [400, 600) an HTTPError, printed with the response body and
fatal with exit code 2; any other exception of the GET or of the JSON
decoding is printed with its message and fatal with exit code 3. On
success the decoded document is returned. The error side carries the
exit code and the stderr line. -/
def requestPhase (res : FetchResult) : Except (Nat × String) Json :=
  match res with
  | .failure e => .error (3, "Request failed: " ++ e)
  | .response status reason url body decoded =>
    if 400 ≤ status ∧ status < 600 then
      .error (2, "HTTP error: " ++ httpErrorText status reason url ++ " - " ++ body)
    else
      match decoded with
      | .error e => .error (3, "Request failed: " ++ e)
      | .ok data => .ok data

/-- Observable event of one invocation: a line on stderr, one file write
(path and written content), or one print to stdout. -/
inductive Ev where
  | stderrLine (s : String) : Ev
  | fileWrite (path content : String) : Ev
  | stdoutLine (s : String) : Ev
deriving DecidableEq

/-- Way the invocation ends: a process exit with a code, or an uncaught
exception (traceback). -/
inductive Term where
  | exited (code : Nat) : Term
  | raised : Term
deriving DecidableEq

/-- Table-mode tail of `main`, lines 118-123: extract the results; on a
falsy extraction print the no-results notice and return; otherwise build
and print the compact table, which raises on a non-list extraction or
when a row raises. -/
def tableModeOut (fields : List (String × Json)) : List Ev × Term :=
  if !pyTruthy (extract_web_results fields) then
    ([Ev.stdoutLine "No web results in response"], Term.exited 0)
  else
    match extract_web_results fields with
    | .arr items =>
      match compact_table items with
      | some s => ([Ev.stdoutLine s], Term.exited 0)
      | none => ([], Term.raised)
    | _ => ([], Term.raised)

/-- Rendering tail of `main`, lines 108-123, run on the successfully
decoded document: the optional save-file write first (line 108-110, only
for a truthy path), then the JSON block and the separator line when
`args.json or not args.table` (lines 112-116), then the table mode tail
(lines 118-123). Table mode on a non-document response raises inside
`extract_web_results`. -/
def renderPhase (a : Args) (data : Json) : List Ev × Term :=
  let saveEvs : List Ev :=
    match a.save with
    | some p => if p ≠ "" then [Ev.fileWrite p (pyJsonDumps data)] else []
    | none => []
  let jsonEvs : List Ev :=
    if a.json || !a.table then
      [Ev.stdoutLine (pyJsonDumps data)] ++
        (if a.table then [Ev.stdoutLine "\n---\n"] else [])
    else []
  if a.table then
    match data with
    | .obj fields =>
      let r := tableModeOut fields
      (saveEvs ++ jsonEvs ++ r.1, r.2)
    | _ => (saveEvs ++ jsonEvs, Term.raised)
  else (saveEvs ++ jsonEvs, Term.exited 0)

/-- Result of one invocation: the events in order, the termination, and
whether the HTTP GET was attempted. -/
structure RunOut where
  events : List Ev
  term : Term
  netAttempted : Bool
deriving DecidableEq

/-- Top-level `main` of the source, lines 87-123, over the ambient
inputs: the credential environment variable, the command line, and the
behaviour of the single HTTP GET as a function of the built parameters.
The credential is checked first (exit 1 on a falsy value, before the
parser runs); a parser failure exits with the usage code 2; then the
request block runs, and on success the rendering tail. -/
def mainRun (apiKey : Option String) (argv : List String)
    (fetch : List (String × Json) → FetchResult) : RunOut :=
  if apiKey.getD "" = "" then
    { events := [Ev.stderrLine "Error: BRAVE_SEARCH_API_KEY is not set"],
      term := Term.exited 1, netAttempted := false }
  else
    match parse_args argv with
    | .error msg =>
      { events := [Ev.stderrLine msg], term := Term.exited 2, netAttempted := false }
    | .ok args =>
      match requestPhase (fetch (build_params args)) with
      | .error ec =>
        { events := [Ev.stderrLine ec.2], term := Term.exited ec.1, netAttempted := true }
      | .ok data =>
        let r := renderPhase args data
        { events := r.1, term := r.2, netAttempted := true }

/-! Helper lemmas. -/

theorem strData (a b : String) : (a ++ b).data = a.data ++ b.data := rfl

theorem isPrefL_append (p t : List Char) : isPrefL p (p ++ t) = true := by
  induction p with
  | nil => rfl
  | cons c cs ih => simp [isPrefL, ih]

theorem containsL_self_append (pat suf : List Char) : containsL pat (pat ++ suf) = true := by
  cases pat with
  | nil => cases suf <;> simp [containsL, isPrefL]
  | cons p ps =>
    simp only [List.cons_append, containsL]
    simp [isPrefL, isPrefL_append]

theorem containsL_append_left (x t pat : List Char) (h : containsL pat t = true) :
    containsL pat (x ++ t) = true := by
  induction x with
  | nil => simpa using h
  | cons c cs ih =>
    simp only [List.cons_append, containsL]
    simp [ih]

theorem containsL_self (pat : List Char) : containsL pat pat = true := by
  simpa using containsL_self_append pat []

/-! Claim C2: the extraction rule. -/

/-- Counterexample to claim C2: the claim says a `results` value that is
not a list defaults to the empty list, but on
`\x7b"web": \x7b"results": "abc"\x7d\x7d` the code returns the string
`"abc"` unchanged, because the `or []` default only replaces falsy
values. -/
theorem c2_extract_counterexample :
    extract_web_results [("web", Json.obj [("results", Json.str "abc")])] = Json.str "abc" ∧
    Json.str "abc" ≠ Json.arr [] :=
  ⟨rfl, fun h => Json.noConfusion h⟩

/-- Modelled from the claim as amended: the `results` field value is
returned unchanged whenever it is truthy (even when it is not a list),
and the empty-list default applies exactly when the field is absent or
its value is falsy; the `web` branch is taken exactly when the `web`
field holds a document. -/
def extractResultsAmendedClaim (resp : List (String × Json)) : Json :=
  match dictGet resp "web" with
  | some (Json.obj w) =>
    match dictGet w "results" with
    | some v => if pyTruthy v then v else Json.arr []
    | none => Json.arr []
  | _ =>
    match dictGet resp "results" with
    | some v => if pyTruthy v then v else Json.arr []
    | none => Json.arr []

/-- Claim C2, amended: extraction returns the `results` field of the
inner `web` document when that exists, else the top-level `results`
field, defaulting to the empty list exactly when the field is absent or
falsy (a truthy non-list value is returned unchanged); in particular the
three examples of the claim hold. -/
theorem c2_extract_amended :
    (∀ resp, extract_web_results resp = extractResultsAmendedClaim resp) ∧
    (∀ a, extract_web_results [("web", Json.obj [("results", Json.arr [a])])] = Json.arr [a]) ∧
    (∀ b, extract_web_results [("results", Json.arr [b])] = Json.arr [b]) ∧
    extract_web_results [] = Json.arr [] := by
  refine ⟨?_, ?_, ?_, ?_⟩
  · intro resp
    unfold extract_web_results extractResultsAmendedClaim
    cases hw : dictGet resp "web" with
    | none => cases hr : dictGet resp "results" <;> simp [hr, pyTruthy]
    | some w =>
      cases w with
      | obj wf => cases hr : dictGet wf "results" <;> simp [hr, pyTruthy]
      | null => cases hr : dictGet resp "results" <;> simp [hr, pyTruthy]
      | bool b => cases hr : dictGet resp "results" <;> simp [hr, pyTruthy]
      | num n => cases hr : dictGet resp "results" <;> simp [hr, pyTruthy]
      | str s => cases hr : dictGet resp "results" <;> simp [hr, pyTruthy]
      | arr l => cases hr : dictGet resp "results" <;> simp [hr, pyTruthy]
  · intro a; simp [extract_web_results, dictGet, pyTruthy]
  · intro b; simp [extract_web_results, dictGet, pyTruthy]
  · simp [extract_web_results, dictGet, pyTruthy]

/-! Claim C6: missing credential. -/

/-- Claim C6: with the credential variable absent or empty, the run
prints the error to stderr and exits with code 1, for every command
line (parsing never runs: the result does not depend on argv) and with
no network attempt. -/
theorem c6_missing_api_key (apiKey : Option String) (argv : List String)
    (fetch : List (String × Json) → FetchResult) (h : apiKey.getD "" = "") :
    mainRun apiKey argv fetch =
      { events := [Ev.stderrLine "Error: BRAVE_SEARCH_API_KEY is not set"],
        term := Term.exited 1, netAttempted := false } := by
  simp [mainRun, h]

/-- Witness for C6 at a malformed command line and an absent variable. -/
theorem c6_missing_api_key_witness :
    mainRun none ["--bogus", "--safesearch"] (fun _ => FetchResult.failure "boom") =
      { events := [Ev.stderrLine "Error: BRAVE_SEARCH_API_KEY is not set"],
        term := Term.exited 1, netAttempted := false } :=
  c6_missing_api_key none ["--bogus", "--safesearch"] (fun _ => FetchResult.failure "boom") rfl

/-! Claim C5: exit codes of the request block. -/

/-- Counterexample to claim C5: the claim says exit code 2 exactly when
status ≥ 400, but on a response with status 600 (which the HTTP client
library does not turn into an HTTPError: it raises only for statuses in
[400, 600)) the program renders normally and exits 0. -/
theorem c5_exit_codes_counterexample :
    (mainRun (some "k") ["--q", "x"]
        (fun _ => FetchResult.response 600 "Odd" "http://u" "body"
          (.ok (Json.obj [])))).term = Term.exited 0 ∧
    400 ≤ 600 := by
  constructor
  · decide
  · decide

/-! Claim C1: output-mode precedence. -/

/-- Claim C1: the exact truth table of the two output flags, for every
decoded response document. With only the table flag, the output is
exactly the table-mode block (no JSON block); with neither flag or only
the json flag, the output is exactly the pretty-printed JSON block and
no table; with both, the JSON block, then the separator line, then the
table-mode block. -/
theorem c1_output_mode_truth_table (fields : List (String × Json)) :
    renderPhase { q := "q", json := false, table := true } (Json.obj fields)
      = tableModeOut fields ∧
    renderPhase { q := "q", json := false, table := false } (Json.obj fields)
      = ([Ev.stdoutLine (pyJsonDumps (Json.obj fields))], Term.exited 0) ∧
    renderPhase { q := "q", json := true, table := false } (Json.obj fields)
      = ([Ev.stdoutLine (pyJsonDumps (Json.obj fields))], Term.exited 0) ∧
    renderPhase { q := "q", json := true, table := true } (Json.obj fields)
      = (Ev.stdoutLine (pyJsonDumps (Json.obj fields)) :: Ev.stdoutLine "\n---\n"
          :: (tableModeOut fields).1, (tableModeOut fields).2) := by
  refine ⟨?_, ?_, ?_, ?_⟩ <;> simp [renderPhase]

/-! Claim C3: request builder keys. -/

/-- Claim C3: for every options value, the parameter mapping has no
`freshness`, `extra_snippets` or `summary` key when the corresponding
option is falsy or absent, and always has the seven mandatory keys with
their translated values. -/
theorem c3_build_params_keys (a : Args) :
    (a.freshness.getD "" = "" → dictGet (build_params a) "freshness" = none) ∧
    (a.extra_snippets = 0 → dictGet (build_params a) "extra_snippets" = none) ∧
    (a.summary = 0 → dictGet (build_params a) "summary" = none) ∧
    dictGet (build_params a) "q" = some (Json.str a.q) ∧
    dictGet (build_params a) "count" = some (Json.num a.count) ∧
    dictGet (build_params a) "offset" = some (Json.num a.offset) ∧
    dictGet (build_params a) "country" = some (Json.str a.country) ∧
    dictGet (build_params a) "search_lang" = some (Json.str a.lang) ∧
    dictGet (build_params a) "safesearch"
      = some (Json.str ((SAFES_SEARCH_MAP a.safesearch).getD "off")) ∧
    dictGet (build_params a) "spellcheck" = some (Json.num a.spellcheck) := by
  unfold build_params
  split_ifs with h1 h2 h3 <;>
    simp_all [dictGet, List.cons_append, List.nil_append]

/-- Witness for C3 at the default options with query text hi. -/
theorem c3_build_params_keys_witness :
    dictGet (build_params { q := "hi" }) "freshness" = none ∧
    dictGet (build_params { q := "hi" }) "extra_snippets" = none ∧
    dictGet (build_params { q := "hi" }) "summary" = none ∧
    dictGet (build_params { q := "hi" }) "q" = some (Json.str "hi") :=
  ⟨(c3_build_params_keys { q := "hi" }).1 rfl,
   (c3_build_params_keys { q := "hi" }).2.1 rfl,
   (c3_build_params_keys { q := "hi" }).2.2.1 rfl,
   (c3_build_params_keys { q := "hi" }).2.2.2.1⟩

/-! Claim C10: partiality of the table renderer. -/

/-- Counterexample to claim C10: the claim says every item whose
`source` field is absent or a document renders without error, but the
item with `source` absent and a truthy non-string `description` (the
number 5) makes the row raise at `snippet.split()`. -/
theorem c10_compact_table_partiality_cex :
    compactRow 1 (Json.obj [("description", Json.num 5)]) = none ∧
    dictGet [("description", Json.num 5)] "source" = none :=
  ⟨rfl, rfl⟩

/-- Claim C10, amended: a row raises whenever the `title` field is
absent or falsy and `source` is present with a non-document value; and
a row renders without error whenever `source` is absent or a document
and additionally the effective snippet value (the first truthy of
`description` and `snippet`, or the empty string) is a string. -/
theorem c10_compact_table_partiality :
    (∀ (fields : List (String × Json)) (sv : Json) (i : Nat),
        pyTruthy (getF fields "title") = false →
        dictGet fields "source" = some sv →
        (∀ sf, sv ≠ Json.obj sf) →
        compactRow i (Json.obj fields) = none) ∧
    (∀ (fields : List (String × Json)) (i : Nat),
        (dictGet fields "source" = none ∨
          ∃ sf, dictGet fields "source" = some (Json.obj sf)) →
        (∃ s, effSnippet fields = Json.str s) →
        (compactRow i (Json.obj fields)).isSome = true) := by
  constructor
  · intro fields sv i ht hs hnot
    cases sv <;> simp [compactRow, effTitle, ht, hs] <;> exact absurd rfl (hnot _)
  · intro fields i hsrc hsnip
    obtain ⟨s, hs⟩ := hsnip
    have htitle : (effTitle fields).isSome = true := by
      unfold effTitle
      rcases hsrc with h | ⟨sf, h⟩ <;> simp [h]
      · split <;> simp
      · split <;> simp
    obtain ⟨tv, htv⟩ := Option.isSome_iff_exists.mp htitle
    simp [compactRow, htv, hs]

/-- Witness for C10: a non-document `source` with a falsy title makes
the row raise, while an item with `source` absent and string fields
renders. -/
theorem c10_compact_table_partiality_witness :
    compactRow 1 (Json.obj [("source", Json.str "s")]) = none ∧
    (compactRow 1 (Json.obj [("title", Json.str "T")])).isSome = true :=
  ⟨c10_compact_table_partiality.1 [("source", Json.str "s")] (Json.str "s") 1 rfl rfl
      (fun sf h => Json.noConfusion h),
   c10_compact_table_partiality.2 [("title", Json.str "T")] 1 (Or.inl rfl) ⟨"", rfl⟩⟩

/-! Claim C8: the save-file write. -/

theorem tableModeOut_no_write (fields : List (String × Json)) (p c : String) :
    Ev.fileWrite p c ∉ (tableModeOut fields).1 := by
  unfold tableModeOut
  split
  · simp
  · split <;> (try split) <;> simp

theorem renderPhase_write_mem (a : Args) (data : Json) (p c : String)
    (h : Ev.fileWrite p c ∈ (renderPhase a data).1) :
    a.save = some p ∧ p ≠ "" ∧ c = pyJsonDumps data := by
  unfold renderPhase at h
  rcases hs : a.save with _ | pv <;> rw [hs] at h <;>
    cases hj : a.json <;> cases ht : a.table <;> rw [hj, ht] at h <;>
    cases data <;>
    simp_all [tableModeOut_no_write]

/-- Claim C8: with a nonempty save path, the decoded response serialized
with 2-space indent and unescaped non-ASCII is written first, before any
rendering output, for every combination of the output flags (the rest of
the rendering is what it would be without a save path); without a save
path no file event exists; and across a whole run a file write implies a
successful parse and a successful response, with the written content the
raw decoded document. -/
theorem c8_save_file :
    (∀ (a : Args) (data : Json) (p : String), a.save = some p → p ≠ "" →
        (renderPhase a data).1
          = Ev.fileWrite p (pyJsonDumps data) :: (renderPhase { a with save := none } data).1 ∧
        (renderPhase a data).2 = (renderPhase { a with save := none } data).2) ∧
    (∀ (a : Args) (data : Json), a.save = none →
        ∀ p c, Ev.fileWrite p c ∉ (renderPhase a data).1) ∧
    (∀ key argv fetch p c, Ev.fileWrite p c ∈ (mainRun key argv fetch).events →
        ∃ a data, parse_args argv = .ok a ∧
          requestPhase (fetch (build_params a)) = .ok data ∧
          a.save = some p ∧ p ≠ "" ∧ c = pyJsonDumps data) := by
  refine ⟨?_, ?_, ?_⟩
  · intro a data p h1 h2
    unfold renderPhase
    cases htab : a.table <;> cases hjs : a.json <;> cases data <;>
      simp [h1, h2, htab, hjs]
  · intro a data h p c
    intro hmem
    have := renderPhase_write_mem a data p c hmem
    simp [h] at this
  · intro key argv fetch p c hmem
    unfold mainRun at hmem
    split at hmem
    · simp at hmem
    · rcases hp : parse_args argv with e | a
      · simp only [hp] at hmem
        simp at hmem
      · simp only [hp] at hmem
        rcases hr : requestPhase (fetch (build_params a)) with e | data
        · simp only [hr] at hmem
          simp at hmem
        · simp only [hr] at hmem
          have hw := renderPhase_write_mem a data p c (by simpa using hmem)
          exact ⟨a, data, rfl, hr, hw.1, hw.2.1, hw.2.2⟩

/-- Witness for C8: a concrete successful run with a save path writes
the serialized document first. -/
theorem c8_save_file_witness :
    (renderPhase { q := "x", save := some "out.json" } (Json.obj [])).1
      = Ev.fileWrite "out.json" (pyJsonDumps (Json.obj []))
          :: (renderPhase { q := "x", save := none } (Json.obj [])).1 :=
  (c8_save_file.1 { q := "x", save := some "out.json" } (Json.obj []) "out.json" rfl
    (by decide)).1

/-! Claim C9: table-mode rendering. -/

theorem compactRows_get : ∀ (items : List Json) (n : Nat) (rows : List String),
    compactRows n items = some rows →
    rows.length = items.length ∧
      ∀ k item, items[k]? = some item → rows[k]? = compactRow (n + k) item := by
  intro items
  induction items with
  | nil =>
    intro n rows h
    simp [compactRows] at h
    subst h
    simp
  | cons item rest ih =>
    intro n rows h
    unfold compactRows at h
    rcases hrow : compactRow n item with _ | r <;> rw [hrow] at h
    · simp at h
    · rcases hrest : compactRows (n + 1) rest with _ | rs <;> rw [hrest] at h
      · simp at h
      · simp at h
        subst h
        obtain ⟨hlen, hidx⟩ := ih (n + 1) rs hrest
        refine ⟨by simp [hlen], ?_⟩
        intro k it hk
        cases k with
        | zero =>
          simp at hk
          subst hk
          simpa using hrow.symm
        | succ k =>
          simp only [List.getElem?_cons_succ] at hk ⊢
          rw [hidx k it hk]
          congr 1
          omega

/-- Claim C9: in table mode, a falsy extraction prints exactly the
no-results notice and the run completes with exit code 0 (no table
block); a non-empty extracted list prints exactly the newline-joined
rows, where the row at 0-based position k comes from the item at that
position rendered at 1-based index k+1; and every successfully rendered
row starts with the right-justified 1-based index, a period, a space,
and the title value. -/
theorem c9_table_rendering :
    (∀ fields, pyTruthy (extract_web_results fields) = false →
        tableModeOut fields
          = ([Ev.stdoutLine "No web results in response"], Term.exited 0) ∧
        renderPhase { q := "q", table := true } (Json.obj fields)
          = ([Ev.stdoutLine "No web results in response"], Term.exited 0)) ∧
    (∀ fields items rows, extract_web_results fields = Json.arr items → items ≠ [] →
        compactRows 1 items = some rows →
        tableModeOut fields
          = ([Ev.stdoutLine (String.intercalate "\n" rows)], Term.exited 0) ∧
        ∀ k item, items[k]? = some item → rows[k]? = compactRow (1 + k) item) ∧
    (∀ (i : Nat) (fields : List (String × Json)) (tv : Json) (row : String),
        effTitle fields = some tv →
        compactRow i (Json.obj fields) = some row →
        ∃ tail, row = rjust2 i ++ ". " ++ pyStr tv ++ "\n    " ++ tail) := by
  refine ⟨?_, ?_, ?_⟩
  · intro fields h
    constructor
    · unfold tableModeOut
      simp [h]
    · unfold renderPhase tableModeOut
      simp [h]
  · intro fields items rows hex hne hrows
    have htruthy : pyTruthy (extract_web_results fields) = true := by
      rw [hex]
      simpa [pyTruthy] using hne
    constructor
    · unfold tableModeOut
      rw [hex] at htruthy ⊢
      simp [htruthy, compact_table, hrows]
    · exact (compactRows_get items 1 rows hrows).2
  · intro i fields tv row htv hrow
    rcases hs : effSnippet fields with _ | b | n | s | l | fs <;>
      simp [compactRow, htv, hs] at hrow
    refine ⟨pyStr (effUrl fields) ++ "\n    " ++ fill92 (truncate160 (collapseWs s)), ?_⟩
    rw [← hrow]
    simp [String.append_assoc]

/-- Witness for C9: an empty result list yields exactly the notice, and
a concrete one-item row starts with the index, period and title. -/
theorem c9_table_rendering_witness :
    tableModeOut [("results", Json.arr [])]
      = ([Ev.stdoutLine "No web results in response"], Term.exited 0) ∧
    (∃ tail,
      rjust2 1 ++ ". " ++ pyStr (Json.str "T") ++ "\n    " ++ pyStr (Json.str "u")
          ++ "\n    " ++ fill92 (truncate160 (collapseWs "d"))
        = rjust2 1 ++ ". " ++ pyStr (Json.str "T") ++ "\n    " ++ tail) :=
  ⟨(c9_table_rendering.1 [("results", Json.arr [])] rfl).1,
   c9_table_rendering.2.2 1
     [("title", Json.str "T"), ("url", Json.str "u"), ("description", Json.str "d")]
     (Json.str "T")
     (rjust2 1 ++ ". " ++ pyStr (Json.str "T") ++ "\n    " ++ pyStr (Json.str "u")
       ++ "\n    " ++ fill92 (truncate160 (collapseWs "d"))) rfl rfl⟩

/-- Claim C5, amended: exit code 2 arises exactly for a response status
in [400, 599] (the range the HTTP client library turns into an
HTTPError; the claim said every status ≥ 400), with a stderr message
containing the status and the body text; every request failure, and a
JSON-decoding failure on a non-error status, exits with code 3 with a
message containing the underlying error text; and the request-block
verdict is what the whole run reports. -/
theorem c5_exit_codes_amended :
    (∀ (status : Nat) (reason url body : String) (decoded : Except String Json),
        400 ≤ status → status < 600 →
        requestPhase (.response status reason url body decoded)
          = .error (2, "HTTP error: " ++ httpErrorText status reason url ++ " - " ++ body) ∧
        containsSub ("HTTP error: " ++ httpErrorText status reason url ++ " - " ++ body)
          (toString status) = true ∧
        containsSub ("HTTP error: " ++ httpErrorText status reason url ++ " - " ++ body)
          body = true) ∧
    (∀ e, requestPhase (.failure e) = .error (3, "Request failed: " ++ e) ∧
        containsSub ("Request failed: " ++ e) e = true) ∧
    (∀ (status : Nat) (reason url body e : String), ¬(400 ≤ status ∧ status < 600) →
        requestPhase (.response status reason url body (.error e))
          = .error (3, "Request failed: " ++ e)) ∧
    (∀ res c m, requestPhase res = .error (c, m) → c = 2 →
        ∃ status reason url body decoded,
          res = .response status reason url body decoded ∧ 400 ≤ status ∧ status < 600) ∧
    (∀ key argv fetch a c m, key.getD "" ≠ "" → parse_args argv = .ok a →
        requestPhase (fetch (build_params a)) = .error (c, m) →
        mainRun key argv fetch
          = { events := [Ev.stderrLine m], term := Term.exited c, netAttempted := true }) := by
  refine ⟨?_, ?_, ?_, ?_, ?_⟩
  · intro status reason url body decoded h4 h6
    refine ⟨by simp [requestPhase, h4, h6], ?_, ?_⟩
    · unfold containsSub httpErrorText
      simp only [strData, List.append_assoc]
      apply containsL_append_left
      exact containsL_self_append _ _
    · unfold containsSub httpErrorText
      simp only [strData, List.append_assoc]
      repeat' apply containsL_append_left
      exact containsL_self _
  · intro e
    refine ⟨rfl, ?_⟩
    unfold containsSub
    simp only [strData]
    apply containsL_append_left
    exact containsL_self _
  · intro status reason url body e h
    simp [requestPhase, h]
  · intro res c m hres hc
    subst hc
    cases res with
    | failure e => simp [requestPhase] at hres
    | response status reason url body decoded =>
      refine ⟨status, reason, url, body, decoded, rfl, ?_⟩
      simp only [requestPhase] at hres
      split at hres
      next h => exact h
      next h => cases decoded <;> simp_all
  · intro key argv fetch a c m hkey hp hr
    unfold mainRun
    rw [if_neg hkey]
    simp [hp, hr]

/-- Witness for C5 at a concrete 404 response, a connection failure, and
a concrete run. -/
theorem c5_exit_codes_amended_witness :
    requestPhase (.response 404 "Not Found" "http://u" "missing" (.error "no json"))
      = .error (2, "HTTP error: " ++ httpErrorText 404 "Not Found" "http://u" ++ " - missing") ∧
    containsSub ("HTTP error: " ++ httpErrorText 404 "Not Found" "http://u" ++ " - missing")
      "404" = true ∧
    requestPhase (.failure "connection refused")
      = .error (3, "Request failed: connection refused") ∧
    mainRun (some "k") ["--q", "x"] (fun _ => .failure "connection refused")
      = { events := [Ev.stderrLine "Request failed: connection refused"],
          term := Term.exited 3, netAttempted := true } := by
  have h1 := c5_exit_codes_amended.1 404 "Not Found" "http://u" "missing"
    (.error "no json") (by decide) (by decide)
  have h2 := c5_exit_codes_amended.2.1 "connection refused"
  have h3 := c5_exit_codes_amended.2.2.2.2 (some "k") ["--q", "x"]
    (fun _ => .failure "connection refused") { q := "x" } 3
    "Request failed: connection refused" (by decide) rfl rfl
  exact ⟨by simpa using h1.1, by simpa using h1.2.1, h2.1, h3⟩

/-! Claim C7: the safe-search mapping and its upstream validation. -/

theorem build_params_safesearch_key (a : Args) :
    dictGet (build_params a) "safesearch"
      = some (Json.str ((SAFES_SEARCH_MAP a.safesearch).getD "off")) := by
  unfold build_params
  split_ifs <;> simp [dictGet, List.cons_append, List.nil_append]

theorem scanArgs_safesearch_inv (toks : List String) (acc : ArgsAcc) :
    ∀ acc', (acc.safesearch = 0 ∨ acc.safesearch = 1 ∨ acc.safesearch = 2) →
      scanArgs toks acc = .ok acc' →
      (acc'.safesearch = 0 ∨ acc'.safesearch = 1 ∨ acc'.safesearch = 2) := by
  induction toks, acc using scanArgs.induct <;>
    intro acc' h hok <;>
    rw [scanArgs.eq_def] at hok <;>
    simp_all

/-- Claim C7: the fixed safe-search map sends 0, 1, 2 to off, moderate,
strict and nothing else; every successful parse carries a safe-search
level in 0, 1, 2 (so no other integer reaches the map inside the request
builder, whose safesearch value is the translated token); a value
outside the choices is a parse-time usage error; and a parse error exits
with the usage code 2 before any request is attempted. -/
theorem c7_safesearch_mapping :
    SAFES_SEARCH_MAP 0 = some "off" ∧
    SAFES_SEARCH_MAP 1 = some "moderate" ∧
    SAFES_SEARCH_MAP 2 = some "strict" ∧
    (∀ n : Int, n ≠ 0 → n ≠ 1 → n ≠ 2 → SAFES_SEARCH_MAP n = none) ∧
    (∀ argv a, parse_args argv = .ok a →
        (a.safesearch = 0 ∨ a.safesearch = 1 ∨ a.safesearch = 2) ∧
        dictGet (build_params a) "safesearch"
          = some (Json.str ((SAFES_SEARCH_MAP a.safesearch).getD "off"))) ∧
    parse_args ["--q", "x", "--safesearch", "3"]
      = .error "usage error: argument --safesearch: invalid choice" ∧
    (∀ key argv fetch msg, key.getD "" ≠ "" → parse_args argv = .error msg →
        mainRun key argv fetch
          = { events := [Ev.stderrLine msg], term := Term.exited 2, netAttempted := false }) := by
  refine ⟨rfl, rfl, rfl, ?_, ?_, rfl, ?_⟩
  · intro n h0 h1 h2
    simp [SAFES_SEARCH_MAP, h0, h1, h2]
  · intro argv a hp
    unfold parse_args at hp
    rcases hs : scanArgs argv {} with e | acc
    · simp only [hs] at hp
      simp at hp
    · simp only [hs] at hp
      rcases hq : acc.q with _ | qv
      · simp only [hq] at hp
        simp at hp
      · simp only [hq] at hp
        simp at hp
        have hinv := scanArgs_safesearch_inv argv {} acc (by simp) hs
        have hsafe : a.safesearch = acc.safesearch := by rw [← hp]
        constructor
        · rw [hsafe]; exact hinv
        · exact build_params_safesearch_key a
  · intro key argv fetch msg hkey hp
    unfold mainRun
    rw [if_neg hkey]
    simp [hp]

/-- Witness for C7 at a run whose command line fails to parse and a
concrete out-of-range map lookup. -/
theorem c7_safesearch_mapping_witness :
    SAFES_SEARCH_MAP 5 = none ∧
    (( { q := "x", safesearch := 2 } : Args).safesearch = 0 ∨
      ({ q := "x", safesearch := 2 } : Args).safesearch = 1 ∨
      ({ q := "x", safesearch := 2 } : Args).safesearch = 2) ∧
    mainRun (some "k") ["--q", "x", "--safesearch", "3"] (fun _ => .failure "e")
      = { events := [Ev.stderrLine "usage error: argument --safesearch: invalid choice"],
          term := Term.exited 2, netAttempted := false } :=
  ⟨c7_safesearch_mapping.2.2.2.1 5 (by decide) (by decide) (by decide),
   (c7_safesearch_mapping.2.2.2.2.1 ["--q", "x", "--safesearch", "2"]
     { q := "x", safesearch := 2 } rfl).1,
   c7_safesearch_mapping.2.2.2.2.2.2 (some "k") ["--q", "x", "--safesearch", "3"]
     (fun _ => .failure "e") "usage error: argument --safesearch: invalid choice"
     (by decide) rfl⟩

/-! Claim C4: the snippet pipeline. Helper lemmas about the collapse,
the truncation arithmetic, and adjacency of spaces. -/

theorem splitWs_nil (acc : List Char) :
    splitWs [] acc = if acc.isEmpty then [] else [acc.reverse] := rfl

theorem splitWs_cons (c : Char) (cs acc : List Char) :
    splitWs (c :: cs) acc =
      if pyWsChar c then
        (if acc.isEmpty then splitWs cs [] else acc.reverse :: splitWs cs [])
      else splitWs cs (c :: acc) := rfl

theorem joinWords_pair (w v : List Char) (vs : List (List Char)) :
    joinWords (w :: v :: vs) = w ++ ' ' :: joinWords (v :: vs) := rfl

/-- Words produced by the split are nonempty and free of whitespace
characters, given a whitespace-free accumulator. -/
theorem splitWs_words : ∀ (cs acc : List Char), (∀ c ∈ acc, pyWsChar c = false) →
    ∀ w ∈ splitWs cs acc, w ≠ [] ∧ ∀ c ∈ w, pyWsChar c = false := by
  intro cs
  induction cs with
  | nil =>
    intro acc hacc w hw
    rw [splitWs_nil] at hw
    by_cases hae : acc.isEmpty = true
    · rw [if_pos hae] at hw
      simp at hw
    · rw [if_neg hae] at hw
      simp at hw
      subst hw
      refine ⟨?_, ?_⟩
      · simp only [ne_eq, List.reverse_eq_nil_iff]
        simpa using hae
      · intro c hc
        exact hacc c (List.mem_reverse.mp hc)
  | cons c cs ih =>
    intro acc hacc w hw
    rw [splitWs_cons] at hw
    by_cases hws : pyWsChar c = true
    · rw [if_pos hws] at hw
      by_cases hae : acc.isEmpty = true
      · rw [if_pos hae] at hw
        exact ih [] (by simp) w hw
      · rw [if_neg hae] at hw
        rcases List.mem_cons.mp hw with h | h
        · subst h
          refine ⟨?_, ?_⟩
          · simp only [ne_eq, List.reverse_eq_nil_iff]
            simpa using hae
          · intro x hx
            exact hacc x (List.mem_reverse.mp hx)
        · exact ih [] (by simp) w h
    · rw [if_neg hws] at hw
      refine ih (c :: acc) ?_ w hw
      intro x hx
      rcases List.mem_cons.mp hx with h | h
      · subst h
        simpa using hws
      · exact hacc x h

/-- Characters of the join are characters of the words or single-space
separators. -/
theorem joinWords_ws_chars : ∀ (ws : List (List Char)),
    (∀ w ∈ ws, ∀ c ∈ w, pyWsChar c = false) →
    ∀ c ∈ joinWords ws, pyWsChar c = true → c = ' ' := by
  intro ws
  induction ws with
  | nil =>
    intro _ c hc
    simp [joinWords] at hc
  | cons w rest ih =>
    intro hgood c hc hwsc
    cases rest with
    | nil =>
      have : pyWsChar c = false := hgood w (by simp) c hc
      rw [this] at hwsc
      exact absurd hwsc (by simp)
    | cons v vs =>
      rw [joinWords_pair] at hc
      rcases List.mem_append.mp hc with h | h
      · have : pyWsChar c = false := hgood w (by simp) c h
        rw [this] at hwsc
        exact absurd hwsc (by simp)
      · rcases List.mem_cons.mp h with h2 | h2
        · exact h2
        · exact ih (fun u hu => hgood u (by simp [hu])) c h2 hwsc

/-- Adjacency tracker: no two consecutive spaces, the previous character
given explicitly. -/
def noTwoSpacesAux (prev : Char) : List Char → Bool
  | [] => true
  | c :: cs => !(prev == ' ' && c == ' ') && noTwoSpacesAux c cs

theorem containsL_two_of_aux : ∀ (l : List Char) (prev : Char),
    noTwoSpacesAux prev l = true →
    containsL [' ', ' '] (prev :: l) = false := by
  intro l
  induction l with
  | nil =>
    intro prev _
    simp [containsL, isPrefL]
  | cons b bs ih =>
    intro prev h
    simp only [noTwoSpacesAux, Bool.and_eq_true] at h
    obtain ⟨h1, h2⟩ := h
    have htail := ih b h2
    show (isPrefL [' ', ' '] (prev :: b :: bs) || containsL [' ', ' '] (b :: bs)) = false
    rw [htail, Bool.or_false]
    show ((' ' == prev) && ((' ' == b) && true)) = false
    by_cases hp : prev = ' '
    · by_cases hb : b = ' '
      · subst hp
        subst hb
        simp at h1
      · have hsb : (' ' == b) = false := beq_eq_false_iff_ne.mpr (fun hh => hb hh.symm)
        simp [hsb]
    · have hsp : (' ' == prev) = false := beq_eq_false_iff_ne.mpr (fun hh => hp hh.symm)
      simp [hsp]

theorem aux_append_nonspace : ∀ (w : List Char) (prev : Char) (rest : List Char),
    w ≠ [] → (∀ c ∈ w, ¬ c = ' ') →
    (∀ q, ¬ q = ' ' → noTwoSpacesAux q rest = true) →
    noTwoSpacesAux prev (w ++ rest) = true := by
  intro w
  induction w with
  | nil =>
    intro prev rest hne
    exact absurd rfl hne
  | cons a w2 ih =>
    intro prev rest _ hns hrest
    have ha : ¬ a = ' ' := hns a (by simp)
    cases w2 with
    | nil =>
      show (!(prev == ' ' && a == ' ') && noTwoSpacesAux a rest) = true
      rw [hrest a ha]
      simp [ha]
    | cons b w3 =>
      have htail := ih a rest (by simp) (fun c hc => hns c (by simp [hc])) hrest
      show (!(prev == ' ' && a == ' ') && noTwoSpacesAux a ((b :: w3) ++ rest)) = true
      rw [htail]
      simp [ha]

/-- Joined good words never hold two consecutive spaces, whatever stands
before them. -/
theorem nds_joinWords : ∀ (ws : List (List Char)),
    (∀ w ∈ ws, w ≠ [] ∧ ∀ c ∈ w, ¬ c = ' ') →
    ∀ q, noTwoSpacesAux q (joinWords ws) = true := by
  intro ws
  induction ws with
  | nil =>
    intro _ q
    rfl
  | cons w rest ih =>
    intro hgood q
    cases rest with
    | nil =>
      have : joinWords [w] = w ++ [] := by simp [joinWords]
      rw [this]
      exact aux_append_nonspace w q [] (hgood w (by simp)).1 (hgood w (by simp)).2
        (fun p _ => rfl)
    | cons v vs =>
      rw [joinWords_pair]
      refine aux_append_nonspace w q (' ' :: joinWords (v :: vs))
        (hgood w (by simp)).1 (hgood w (by simp)).2 ?_
      intro p hp
      simp only [noTwoSpacesAux]
      have := ih (fun u hu => hgood u (by simp [hu])) ' '
      rw [this]
      simp [hp]

theorem collapseWs_no_double_space (s : String) :
    containsSub (collapseWs s) "  " = false := by
  have hgood : ∀ w ∈ wordsOf s, w ≠ [] ∧ ∀ c ∈ w, ¬ c = ' ' := by
    intro w hw
    obtain ⟨h1, h2⟩ := splitWs_words s.data [] (by simp) w hw
    refine ⟨h1, ?_⟩
    intro c hc hsp
    have := h2 c hc
    rw [hsp] at this
    simp [pyWsChar] at this
  show containsL [' ', ' '] (joinWords (wordsOf s)) = false
  cases hj : joinWords (wordsOf s) with
  | nil => rfl
  | cons c l =>
    apply containsL_two_of_aux
    have hm := nds_joinWords (wordsOf s) hgood 'x'
    rw [hj] at hm
    simp only [noTwoSpacesAux, Bool.and_eq_true] at hm
    exact hm.2

theorem mk_data (l : List Char) : (String.mk l).data = l := rfl

theorem truncate160_long (s : String) (h : 160 < pyLen s) :
    truncate160 s = strTake s 157 ++ "..." ∧
    pyLen (strTake s 157) = 157 ∧
    pyLen (truncate160 s) = 160 := by
  have hlen : 160 < s.data.length := h
  have htk : pyLen (strTake s 157) = 157 := by
    simp only [pyLen, strTake, mk_data, List.length_take]
    omega
  have heq : truncate160 s = strTake s 157 ++ "..." := by simp [truncate160, h]
  refine ⟨heq, htk, ?_⟩
  rw [heq]
  simp only [pyLen, strData, strTake, mk_data, List.length_append, List.length_take]
  have h2 : (['.', '.', '.'] : List Char).length = 3 := rfl
  omega

/-- Claim C4: the collapsed snippet holds no whitespace other than the
single space and never two adjacent spaces; when the collapsed snippet
exceeds 160 code points it becomes exactly its first 157 code points
plus the 3-character ellipsis (160 in total, and in particular for a
200-point collapsed snippet), otherwise it is unchanged; and the
rendered row applies exactly the pipeline collapse, then truncation,
then the width-92 word wrap, in that order. -/
theorem c4_snippet_pipeline :
    (∀ (s : String), ∀ c ∈ (collapseWs s).data, pyWsChar c = true → c = ' ') ∧
    (∀ s : String, containsSub (collapseWs s) "  " = false) ∧
    (∀ s : String, 160 < pyLen (collapseWs s) →
        truncate160 (collapseWs s) = strTake (collapseWs s) 157 ++ "..." ∧
        pyLen (strTake (collapseWs s) 157) = 157 ∧
        pyLen (truncate160 (collapseWs s)) = 160) ∧
    (∀ s : String, pyLen (collapseWs s) ≤ 160 →
        truncate160 (collapseWs s) = collapseWs s) ∧
    (∀ s : String, pyLen (collapseWs s) = 200 →
        truncate160 (collapseWs s) = strTake (collapseWs s) 157 ++ "..." ∧
        pyLen (truncate160 (collapseWs s)) = 160) ∧
    (∀ (i : Nat) (t u s : String),
        compactRow i (Json.obj [("title", Json.str t), ("url", Json.str u),
            ("description", Json.str s)])
          = some (rjust2 i ++ ". " ++ t ++ "\n    " ++ u ++ "\n    " ++
              fill92 (truncate160 (collapseWs s)))) := by
  refine ⟨?_, ?_, ?_, ?_, ?_, ?_⟩
  · intro s c hc hwc
    refine joinWords_ws_chars (wordsOf s) ?_ c ?_ hwc
    · intro w hw
      exact (splitWs_words s.data [] (by simp) w hw).2
    · simpa [collapseWs, mk_data] using hc
  · exact collapseWs_no_double_space
  · intro s h
    exact truncate160_long (collapseWs s) h
  · intro s h
    simp [truncate160, show ¬ 160 < pyLen (collapseWs s) by omega]
  · intro s h
    refine ⟨(truncate160_long (collapseWs s) (by omega)).1,
      (truncate160_long (collapseWs s) (by omega)).2.2⟩
  · intro i t u s
    rcases eq_or_ne t "" with ht | ht <;> rcases eq_or_ne u "" with hu | hu <;>
      rcases eq_or_ne s "" with hs | hs <;>
      simp [compactRow, effTitle, effUrl, effSnippet, getF, dictGet, pyOr, pyTruthy,
        pyStr, ht, hu, hs]

set_option maxRecDepth 8000 in
/-- Witness for C4 at a 200-character snippet and a concrete rendered
row. -/
theorem c4_snippet_pipeline_witness :
    (truncate160 (collapseWs (String.mk (List.replicate 200 'a')))
      = strTake (collapseWs (String.mk (List.replicate 200 'a'))) 157 ++ "..." ∧
    pyLen (truncate160 (collapseWs (String.mk (List.replicate 200 'a')))) = 160) ∧
    compactRow 3 (Json.obj [("title", Json.str "T"), ("url", Json.str "u"),
        ("description", Json.str "d e")])
      = some (rjust2 3 ++ ". " ++ "T" ++ "\n    " ++ "u" ++ "\n    " ++
          fill92 (truncate160 (collapseWs "d e"))) := by
  have h := c4_snippet_pipeline.2.2.2.2.1 (String.mk (List.replicate 200 'a')) (by decide)
  exact ⟨⟨h.1, h.2⟩, c4_snippet_pipeline.2.2.2.2.2 3 "T" "u" "d e"⟩

end Brave
